import Mathlib

/-!
Shallow embedding of the order-construction and authentication core of the
polymarket-go-client repository: the rounding utilities and EIP-712 encoders
of pkg/utils, the amount computation and order assembly of pkg/orderbuilder,
the price-validation gate of pkg/client, the recovery-id normalization of
pkg/signer, and the HMAC header construction of pkg/auth.

Go float64 quantities are modelled as exact rationals (ℚ); the Go conversions
int(x) and big.Float.Int — truncation toward zero — are modelled by trunc.
Cryptographic primitives supplied by external libraries (keccak256 and
HMAC-SHA256) are taken as function parameters; byte strings are lists of ℕ.
-/

namespace PolyClob

/-- Rounding configuration per tick size (types.RoundConfig). -/
structure RoundConfig where
  price : ℕ
  size : ℕ
  amount : ℕ
deriving DecidableEq

/-- Go conversions int(x) and big.Float.Int(nil): truncation toward zero. -/
def trunc (q : ℚ) : ℤ := if 0 ≤ q then ⌊q⌋ else ⌈q⌉

/-- utils.RoundDown: float64(int(value*multiplier)) / multiplier with
multiplier = 10^decimals. -/
def roundDown (value : ℚ) (decimals : ℕ) : ℚ :=
  (trunc (value * 10 ^ decimals) : ℚ) / 10 ^ decimals

/-- utils.RoundUp: float64(int(value*multiplier)+1) / multiplier. -/
def roundUp (value : ℚ) (decimals : ℕ) : ℚ :=
  ((trunc (value * 10 ^ decimals) + 1 : ℤ) : ℚ) / 10 ^ decimals

/-- utils.RoundNormal: float64(int(value*multiplier+0.5)) / multiplier. -/
def roundNormal (value : ℚ) (decimals : ℕ) : ℚ :=
  (trunc (value * 10 ^ decimals + 1 / 2) : ℚ) / 10 ^ decimals

/-- The rounding performed by fmt.Sprintf with verb %.10f: the value scaled
by 10^10 and rounded to the nearest integer, ties to the even integer. -/
def fmtRound10 (v : ℚ) : ℤ :=
  let x := v * 10 ^ 10
  let f := ⌊x⌋
  if x - (f : ℚ) < 1 / 2 then f
  else if 1 / 2 < x - (f : ℚ) then f + 1
  else if 2 ∣ f then f else f + 1

/-- Largest k ≤ bound such that 10^k divides n (number of trailing zero
digits the loop in utils.DecimalPlaces strips, capped at the bound). -/
def tzCount (n : ℤ) : ℕ → ℕ
  | 0 => 0
  | k + 1 => if (10 : ℤ) ^ (k + 1) ∣ n then k + 1 else tzCount n k

/-- utils.DecimalPlaces: format the value with %.10f, strip trailing zeros
and count the digits after the decimal point. -/
def decimalPlaces (v : ℚ) : ℕ := 10 - tzCount (fmtRound10 v) 10

/-- utils.ToTokenDecimals: multiply by 10^6 and truncate to an integer. -/
def toTokenDecimals (amount : ℚ) : ℤ := trunc (amount * 1000000)

/-- types.TickSize01 -/
def TickSize01 : String := "0.1"

/-- types.TickSize001 -/
def TickSize001 : String := "0.01"

/-- types.TickSize0001 -/
def TickSize0001 : String := "0.001"

/-- types.TickSize00001 -/
def TickSize00001 : String := "0.0001"

/-- utils.ParseTickSize: the four recognized tick sizes, defaulting
to 0.01 on any other value. -/
def parseTickSize (tickSize : String) : ℚ :=
  if tickSize = TickSize01 then 1 / 10
  else if tickSize = TickSize001 then 1 / 100
  else if tickSize = TickSize0001 then 1 / 1000
  else if tickSize = TickSize00001 then 1 / 10000
  else 1 / 100

/-- utils.GetRoundingConfig: per-tick-size rounding profile, defaulting to
the profile of tick size 0.01. -/
def getRoundingConfig (tickSize : String) : RoundConfig :=
  if tickSize = TickSize01 then ⟨1, 2, 3⟩
  else if tickSize = TickSize001 then ⟨2, 2, 4⟩
  else if tickSize = TickSize0001 then ⟨3, 2, 5⟩
  else if tickSize = TickSize00001 then ⟨4, 2, 6⟩
  else ⟨2, 2, 4⟩

/-- utils.ValidatePrice: price >= tickSize && price <= 1 - tickSize. -/
def validatePrice (price : ℚ) (tickSize : String) : Bool :=
  decide (parseTickSize tickSize ≤ price) && decide (price ≤ 1 - parseTickSize tickSize)

/-- The validation failures of the client core (spec taxonomy). -/
inductive ClientError where
  | invalidSide
  | invalidPrice
  | invalidCredentialSecret
deriving DecidableEq

/-- types.BUY -/
def BUY : String := "BUY"

/-- types.SELL -/
def SELL : String := "SELL"

/-- OrderBuilder.getOrderAmounts: side ordinal and 10^6-scaled maker/taker
amounts of a limit order, with the two-stage precision repair on the
product leg. -/
def getOrderAmounts (side : String) (size price : ℚ) (tickSize : String) :
    Except ClientError (ℤ × ℤ × ℤ) :=
  let roundConfig := getRoundingConfig tickSize
  let rawPrice := roundNormal price roundConfig.price
  if side = BUY then
    let rawTakerAmt := roundDown size roundConfig.size
    let rawMakerAmt0 := rawTakerAmt * rawPrice
    let rawMakerAmt :=
      if decimalPlaces rawMakerAmt0 > roundConfig.amount then
        let up := roundUp rawMakerAmt0 (roundConfig.amount + 4)
        if decimalPlaces up > roundConfig.amount then roundDown up roundConfig.amount
        else up
      else rawMakerAmt0
    Except.ok (0, toTokenDecimals rawMakerAmt, toTokenDecimals rawTakerAmt)
  else if side = SELL then
    let rawMakerAmt := roundDown size roundConfig.size
    let rawTakerAmt0 := rawMakerAmt * rawPrice
    let rawTakerAmt :=
      if decimalPlaces rawTakerAmt0 > roundConfig.amount then
        let up := roundUp rawTakerAmt0 (roundConfig.amount + 4)
        if decimalPlaces up > roundConfig.amount then roundDown up roundConfig.amount
        else up
      else rawTakerAmt0
    Except.ok (1, toTokenDecimals rawMakerAmt, toTokenDecimals rawTakerAmt)
  else Except.error ClientError.invalidSide

/-- OrderBuilder.getMarketOrderAmounts: BUY divides the size-rounded input
amount by the rounded price, SELL multiplies; the same precision repair is
applied to the derived taker leg. -/
def getMarketOrderAmounts (side : String) (amount price : ℚ) (tickSize : String) :
    Except ClientError (ℤ × ℤ × ℤ) :=
  let roundConfig := getRoundingConfig tickSize
  let rawPrice := roundNormal price roundConfig.price
  if side = BUY then
    let rawMakerAmt := roundDown amount roundConfig.size
    let rawTakerAmt0 := rawMakerAmt / rawPrice
    let rawTakerAmt :=
      if decimalPlaces rawTakerAmt0 > roundConfig.amount then
        let up := roundUp rawTakerAmt0 (roundConfig.amount + 4)
        if decimalPlaces up > roundConfig.amount then roundDown up roundConfig.amount
        else up
      else rawTakerAmt0
    Except.ok (0, toTokenDecimals rawMakerAmt, toTokenDecimals rawTakerAmt)
  else if side = SELL then
    let rawMakerAmt := roundDown amount roundConfig.size
    let rawTakerAmt0 := rawMakerAmt * rawPrice
    let rawTakerAmt :=
      if decimalPlaces rawTakerAmt0 > roundConfig.amount then
        let up := roundUp rawTakerAmt0 (roundConfig.amount + 4)
        if decimalPlaces up > roundConfig.amount then roundDown up roundConfig.amount
        else up
      else rawTakerAmt0
    Except.ok (1, toTokenDecimals rawMakerAmt, toTokenDecimals rawTakerAmt)
  else Except.error ClientError.invalidSide

/-- The price gate of ClobClient.CreateOrder: a price outside the tick-size
interval is rejected with an invalid-price error before any amounts are
computed; otherwise the amounts come from getOrderAmounts. -/
def createOrderChecked (side : String) (size price : ℚ) (tickSize : String) :
    Except ClientError (ℤ × ℤ × ℤ) :=
  if validatePrice price tickSize then getOrderAmounts side size price tickSize
  else Except.error ClientError.invalidPrice

/-- The order-data fields of a market order that CreateMarketOrder fills in
(side ordinal, the two amounts, and the expiration string). -/
structure MarketOrderFields where
  sideInt : ℤ
  makerAmount : ℤ
  takerAmount : ℤ
  expiration : String
deriving DecidableEq

/-- OrderBuilder.CreateMarketOrder: market orders carry expiration "0". -/
def createMarketOrderFields (side : String) (amount price : ℚ) (tickSize : String) :
    Except ClientError MarketOrderFields :=
  match getMarketOrderAmounts side amount price tickSize with
  | Except.error e => Except.error e
  | Except.ok (s, m, t) => Except.ok ⟨s, m, t, "0"⟩

/-- Salt generation in OrderBuilder.signOrder:
int64(float64(time.Now().Unix()) * rand.Float64()). -/
def genSalt (nowSeconds randFloat : ℚ) : ℤ := trunc (nowSeconds * randFloat)

/-- UTF-8 bytes of an ASCII string (all strings hashed by the encoder are
ASCII). -/
def strBytes (s : String) : List ℕ := s.data.map Char.toNat

/-- big.Int.FillBytes into a fixed-length buffer: big-endian bytes. -/
def beBytes : ℕ → ℕ → List ℕ
  | 0, _ => []
  | k + 1, n => beBytes k (n / 256) ++ [n % 256]

/-- The integer a big-endian byte list denotes. -/
def beVal (l : List ℕ) : ℕ := l.foldl (fun acc b => acc * 256 + b) 0

/-- A 20-byte address copied at offset 12 of a 32-byte zero buffer. -/
def addressBytes32 (a : ℕ) : List ℕ := List.replicate 12 0 ++ beBytes 20 a

/-- A uint8 written into the last byte of a 32-byte zero buffer. -/
def uint8Bytes32 (v : ℕ) : List ℕ := List.replicate 31 0 ++ [v % 256]

/-- The Order type string of utils.CreateOrderStructHash. -/
def orderTypeStr : String :=
  "Order(uint256 salt,address maker,address signer,address taker,uint256 tokenId,uint256 makerAmount,uint256 takerAmount,uint256 expiration,uint256 nonce,uint256 feeRateBps,uint8 side,uint8 signatureType)"

/-- The EIP712Domain type string of utils.CreatePolymarketDomain. -/
def orderDomainTypeStr : String :=
  "EIP712Domain(string name,string version,uint256 chainId,address verifyingContract)"

/-- The numeric content of types.OrderData as it reaches the struct-hash
encoder: addresses as 160-bit values, uint256 fields as naturals, side and
signatureType as uint8 ordinals. -/
structure OrderFields where
  maker : ℕ
  signerAddr : ℕ
  taker : ℕ
  tokenId : ℕ
  makerAmount : ℕ
  takerAmount : ℕ
  expiration : ℕ
  nonce : ℕ
  feeRateBps : ℕ
  side : ℕ
  signatureType : ℕ

/-- utils.CreateOrderStructHash: keccak256 of the order type hash followed by
the 12 fields, each encoded to 32 bytes, in declared order. The keccak256
primitive is a parameter. -/
def createOrderStructHash (keccak : List ℕ → List ℕ) (od : OrderFields) (salt : ℕ) :
    List ℕ :=
  keccak (keccak (strBytes orderTypeStr) ++
    beBytes 32 salt ++
    addressBytes32 od.maker ++
    addressBytes32 od.signerAddr ++
    addressBytes32 od.taker ++
    beBytes 32 od.tokenId ++
    beBytes 32 od.makerAmount ++
    beBytes 32 od.takerAmount ++
    beBytes 32 od.expiration ++
    beBytes 32 od.nonce ++
    beBytes 32 od.feeRateBps ++
    uint8Bytes32 od.side ++
    uint8Bytes32 od.signatureType)

/-- utils.CreatePolymarketDomain: domain separator of the order domain. -/
def createPolymarketDomain (keccak : List ℕ → List ℕ) (chainID exchangeAddress : ℕ) :
    List ℕ :=
  keccak (keccak (strBytes orderDomainTypeStr) ++
    keccak (strBytes "Polymarket CTF Exchange") ++
    keccak (strBytes "1") ++
    beBytes 32 chainID ++
    addressBytes32 exchangeAddress)

/-- utils.CreateEIP712Hash: keccak256 of 0x19 0x01 followed by the domain
separator and the struct hash. -/
def createEIP712Hash (keccak : List ℕ → List ℕ) (domainSeparator structHash : List ℕ) :
    List ℕ :=
  keccak (25 :: 1 :: (domainSeparator ++ structHash))

/-- utils.CreateOrderEIP712Hash: the digest that is signed for an order. -/
def createOrderEIP712Hash (keccak : List ℕ → List ℕ) (od : OrderFields) (salt : ℕ)
    (exchangeAddress chainID : ℕ) : List ℕ :=
  createEIP712Hash keccak (createPolymarketDomain keccak chainID exchangeAddress)
    (createOrderStructHash keccak od salt)

/-- Claim-side field encoding: a uint256 value as a big-endian 32-byte
integer. -/
def encUint256 (n : ℕ) : List ℕ := beBytes 32 n

/-- Claim-side field encoding: a 20-byte address left-padded with zero bytes
to 32 bytes. -/
def encAddress (a : ℕ) : List ℕ := List.replicate 12 0 ++ beBytes 20 a

/-- Claim-side field encoding: a uint8 value right-aligned in 32 bytes. -/
def encUint8 (v : ℕ) : List ℕ := List.replicate 31 0 ++ [v % 256]

/-- Signer.Sign recovery-id normalization: the signature is the 64 r‖s bytes
followed by the recovery byte; a recovery byte below 27 is shifted up by 27. -/
def adjustRecovery (body : List ℕ) (v : ℕ) : List ℕ :=
  if v < 27 then body ++ [v + 27] else body ++ [v]

/-- Lowercase hexadecimal digit of a value below 16 (fmt verb %x). -/
def hexDigitChar (n : ℕ) : Char :=
  if n < 10 then Char.ofNat (48 + n) else Char.ofNat (87 + n)

/-- fmt.Sprintf %x on a byte slice: two lowercase hex digits per byte. -/
def bytesToHex : List ℕ → List Char
  | [] => []
  | b :: rest => hexDigitChar (b / 16) :: hexDigitChar (b % 16) :: bytesToHex rest

/-- The transported signature string fmt.Sprintf of 0x%x on the signature. -/
def signatureHexString (sig : List ℕ) : String := "0x" ++ String.mk (bytesToHex sig)

/-- Whether a character is a lowercase hexadecimal digit. -/
def isHexDigitChar (c : Char) : Bool :=
  (48 ≤ c.toNat && c.toNat ≤ 57) || (97 ≤ c.toNat && c.toNat ≤ 102)

/-- The base64url alphabet of encoding/base64 URLEncoding. -/
def b64Alphabet : String :=
  "ABCDEFGHIJKLMNOPQRSTUVWXYZabcdefghijklmnopqrstuvwxyz0123456789-_"

/-- The base64url character of a 6-bit value. -/
def b64CharAt (n : ℕ) : Char := b64Alphabet.data.getD n 'A'

/-- The 6-bit value of a base64url character, none for a character outside
the alphabet. -/
def b64Index (c : Char) : Option ℕ :=
  let i := List.indexOf c b64Alphabet.data
  if i < 64 then some i else none

/-- base64.URLEncoding.DecodeString: padded base64url decoding by 4-character
quanta; the final quantum may carry one or two padding characters. -/
def b64Decode : List Char → Option (List ℕ)
  | [] => some []
  | c1 :: c2 :: c3 :: c4 :: rest =>
    match b64Index c1, b64Index c2 with
    | some i1, some i2 =>
      if c3 = '=' then
        if c4 = '=' ∧ rest = [] then some [i1 * 4 + i2 / 16] else none
      else
        match b64Index c3 with
        | some i3 =>
          if c4 = '=' then
            if rest = [] then some [i1 * 4 + i2 / 16, i2 % 16 * 16 + i3 / 4] else none
          else
            match b64Index c4 with
            | some i4 =>
              match b64Decode rest with
              | some bs =>
                some ((i1 * 4 + i2 / 16) :: (i2 % 16 * 16 + i3 / 4) :: (i3 % 4 * 64 + i4) :: bs)
              | none => none
            | none => none
        | none => none
    | _, _ => none
  | _ => none

/-- base64.URLEncoding.EncodeToString: padded base64url encoding. -/
def b64Encode : List ℕ → List Char
  | [] => []
  | [b1] => [b64CharAt (b1 / 4), b64CharAt (b1 % 4 * 16), '=', '=']
  | [b1, b2] => [b64CharAt (b1 / 4), b64CharAt (b1 % 4 * 16 + b2 / 16), b64CharAt (b2 % 16 * 4), '=']
  | b1 :: b2 :: b3 :: rest =>
    b64CharAt (b1 / 4) :: b64CharAt (b1 % 4 * 16 + b2 / 16) ::
      b64CharAt (b2 % 16 * 4 + b3 / 64) :: b64CharAt (b3 % 64) :: b64Encode rest

/-- strings.ReplaceAll of single quotes by double quotes on the marshaled
body (code points 39 and 34). -/
def replaceQuotes (s : String) : String :=
  String.mk (s.data.map fun c => if c.toNat = 39 then Char.ofNat 34 else c)

/-- The body term of the HMAC message: present iff a body is supplied,
with its single quotes replaced by double quotes. -/
def bodyPart : Option String → String
  | none => ""
  | some b => replaceQuotes b

/-- The message signed by HeaderBuilder.buildHMACSignature: timestamp,
method and path concatenated with no separators, body appended when
present. -/
def hmacMessage (timestamp : ℤ) (method requestPath : String) (body : Option String) :
    String :=
  toString timestamp ++ method ++ requestPath ++ bodyPart body

/-- HeaderBuilder.buildHMACSignature: decode the base64url secret (failing
with the invalid-credential-secret error), HMAC-SHA256 the message bytes
under the decoded key, and base64url-encode the digest. The HMAC-SHA256
primitive is a parameter taking key and message. -/
def buildHMACSignature (hmacSha256 : List ℕ → List ℕ → List ℕ) (secret : String)
    (timestamp : ℤ) (method requestPath : String) (body : Option String) :
    Except ClientError String :=
  match b64Decode secret.data with
  | none => Except.error ClientError.invalidCredentialSecret
  | some decodedSecret =>
    Except.ok (String.mk (b64Encode
      (hmacSha256 decodedSecret (strBytes (hmacMessage timestamp method requestPath body)))))

/-- The two-stage precision repair as the specification states it: if the
leg's decimal-place count exceeds profile.amount, first round it up at
profile.amount + 4 decimals and, if its decimal-place count still exceeds
profile.amount, round it down to profile.amount decimals. -/
def specRepair (leg : ℚ) (cfg : RoundConfig) : ℚ :=
  if decimalPlaces leg > cfg.amount then
    if decimalPlaces (roundUp leg (cfg.amount + 4)) > cfg.amount then
      roundDown (roundUp leg (cfg.amount + 4)) cfg.amount
    else roundUp leg (cfg.amount + 4)
  else leg

/-- The limit-order amount algorithm exactly as the claim states it, built
from specRepair and the rounding helpers the claim names. -/
def specLimitAmounts (side : String) (size price : ℚ) (cfg : RoundConfig) :
    Option (ℤ × ℤ × ℤ) :=
  let roundedPrice := roundNormal price cfg.price
  if side = BUY then
    let takerLeg := roundDown size cfg.size
    let makerLeg := specRepair (takerLeg * roundedPrice) cfg
    some (0, trunc (makerLeg * 1000000), trunc (takerLeg * 1000000))
  else if side = SELL then
    let makerLeg := roundDown size cfg.size
    let takerLeg := specRepair (makerLeg * roundedPrice) cfg
    some (1, trunc (makerLeg * 1000000), trunc (takerLeg * 1000000))
  else none

/-! Evaluation and sign lemmas for the rounding primitives. -/

theorem trunc_intCast (z : ℤ) : trunc (z : ℚ) = z := by
  unfold trunc
  rcases le_or_lt 0 (z : ℚ) with h | h
  · rw [if_pos h, Int.floor_intCast]
  · rw [if_neg (not_le.mpr h), Int.ceil_intCast]

theorem trunc_eval {q : ℚ} (n : ℤ) (d : ℕ) (h : q = (n : ℚ) / (d : ℚ)) (hn : 0 ≤ n) :
    trunc q = n / (d : ℤ) := by
  have hq : 0 ≤ q := by
    rw [h]
    exact div_nonneg (by exact_mod_cast hn) (by positivity)
  rw [trunc, if_pos hq, h, Rat.floor_intCast_div_natCast]

theorem trunc_nonneg {q : ℚ} (h : 0 ≤ q) : 0 ≤ trunc q := by
  rw [trunc, if_pos h]
  exact Int.floor_nonneg.mpr h

theorem fmtRound10_int {v : ℚ} (m : ℤ) (h : v * 10 ^ 10 = (m : ℚ)) : fmtRound10 v = m := by
  unfold fmtRound10
  rw [h]
  simp [Int.floor_intCast]

theorem decimalPlaces_int {v : ℚ} (m : ℤ) (h : v * 10 ^ 10 = (m : ℚ)) :
    decimalPlaces v = 10 - tzCount m 10 := by
  rw [decimalPlaces, fmtRound10_int m h]

theorem roundDown_nonneg {v : ℚ} (d : ℕ) (h : 0 ≤ v) : 0 ≤ roundDown v d := by
  unfold roundDown
  have : (0 : ℤ) ≤ trunc (v * 10 ^ d) := trunc_nonneg (by positivity)
  positivity

theorem roundUp_nonneg {v : ℚ} (d : ℕ) (h : 0 ≤ v) : 0 ≤ roundUp v d := by
  unfold roundUp
  have h1 : (0 : ℤ) ≤ trunc (v * 10 ^ d) := trunc_nonneg (by positivity)
  have h2 : (0 : ℤ) ≤ trunc (v * 10 ^ d) + 1 := by linarith
  positivity

theorem roundNormal_nonneg {v : ℚ} (d : ℕ) (h : 0 ≤ v) : 0 ≤ roundNormal v d := by
  unfold roundNormal
  have : (0 : ℤ) ≤ trunc (v * 10 ^ d + 1 / 2) := trunc_nonneg (by positivity)
  positivity

theorem toTokenDecimals_nonneg {v : ℚ} (h : 0 ≤ v) : 0 ≤ toTokenDecimals v :=
  trunc_nonneg (by positivity)

/-- C1: for every limit order with a recognized side, the amount computation
follows exactly the specified algorithm: price rounded half-up to
profile.price decimals, the size leg rounded down to profile.size decimals,
the product leg built from it (BUY and SELL mirrored), the two-stage
precision repair at profile.amount and profile.amount + 4 decimals applied
to the product leg, and both final legs converted to 10^6-scaled integers
by truncation. -/
theorem limit_amounts_follow_spec_algorithm (side : String) (size price : ℚ)
    (tickSize : String) (hside : side = BUY ∨ side = SELL) (r : ℤ × ℤ × ℤ) :
    getOrderAmounts side size price tickSize = Except.ok r ↔
      specLimitAmounts side size price (getRoundingConfig tickSize) = some r := by
  rcases hside with h | h <;> subst h <;>
    simp [getOrderAmounts, specLimitAmounts, specRepair, toTokenDecimals, BUY, SELL]

/-- Witness for C1 at the Scenario A input. -/
theorem limit_amounts_follow_spec_algorithm_witness :
    getOrderAmounts BUY 10 (11 / 20) TickSize001 = Except.ok (0, 5500000, 10000000) ↔
      specLimitAmounts BUY 10 (11 / 20) (getRoundingConfig TickSize001) =
        some (0, 5500000, 10000000) :=
  limit_amounts_follow_spec_algorithm BUY 10 (11 / 20) TickSize001 (Or.inl rfl)
    (0, 5500000, 10000000)

/-- C2: Scenario A: tick size 0.01, BUY, size 10.0, price 0.55 yields side
ordinal 0, maker amount 5500000 and taker amount 10000000. -/
theorem scenario_a_buy_amounts :
    getOrderAmounts BUY 10 (11 / 20) TickSize001 = Except.ok (0, 5500000, 10000000) := by
  have hprice : roundNormal (11 / 20) 2 = 11 / 20 := by
    unfold roundNormal
    rw [trunc_eval 111 2 (by norm_num) (by norm_num)]
    norm_num
  have hsize : roundDown (10 : ℚ) 2 = 10 := by
    unfold roundDown
    rw [show ((10 : ℚ) * 10 ^ 2) = ((1000 : ℤ) : ℚ) by norm_num, trunc_intCast]
    norm_num
  have hdp : decimalPlaces (11 / 2 : ℚ) = 1 := by
    rw [decimalPlaces_int 55000000000 (by norm_num)]
    decide
  have hm : toTokenDecimals (11 / 2 : ℚ) = 5500000 := by
    rw [toTokenDecimals, show (11 / 2 : ℚ) * 1000000 = ((5500000 : ℤ) : ℚ) by norm_num,
      trunc_intCast]
  have ht : toTokenDecimals (10 : ℚ) = 10000000 := by
    rw [toTokenDecimals, show (10 : ℚ) * 1000000 = ((10000000 : ℤ) : ℚ) by norm_num,
      trunc_intCast]
  have hcfg : getRoundingConfig TickSize001 = ⟨2, 2, 4⟩ := rfl
  simp only [getOrderAmounts, hcfg, hprice, hsize]
  rw [show (10 : ℚ) * (11 / 20) = 11 / 2 by norm_num]
  simp [hdp, hm, ht]

/-- C3: price validation accepts exactly the closed interval from the tick
size to one minus the tick size, and a price outside it makes order
creation fail with the invalid-price error, producing no order data. -/
theorem price_validation_closed_interval (price : ℚ) (tickSize : String)
    (side : String) (size : ℚ) :
    (validatePrice price tickSize = true ↔
      parseTickSize tickSize ≤ price ∧ price ≤ 1 - parseTickSize tickSize) ∧
    (¬(parseTickSize tickSize ≤ price ∧ price ≤ 1 - parseTickSize tickSize) →
      createOrderChecked side size price tickSize = Except.error ClientError.invalidPrice) := by
  constructor
  · simp [validatePrice]
  · intro h
    have hv : validatePrice price tickSize = false := by
      simp [validatePrice]
      intro h1
      rcases not_and_or.mp h with h2 | h2
      · exact absurd h1 h2
      · exact not_le.mp h2
    simp [createOrderChecked, hv]

/-- Witness for C3: price 5 with tick size 0.01 is rejected with the
invalid-price error. -/
theorem price_validation_closed_interval_witness :
    createOrderChecked BUY 1 5 TickSize001 = Except.error ClientError.invalidPrice :=
  (price_validation_closed_interval 5 TickSize001 BUY 1).2 (by
    have : parseTickSize TickSize001 = 1 / 100 := rfl
    rw [this]
    norm_num)

/-- C10: any tick-size string outside the four recognized values parses to
0.01 with rounding profile price 2, size 2, amount 4, and price validation
and both amount computations behave exactly as for tick size 0.01. -/
theorem unrecognized_tick_size_defaults (tickSize : String)
    (h1 : tickSize ≠ TickSize01) (h2 : tickSize ≠ TickSize001)
    (h3 : tickSize ≠ TickSize0001) (h4 : tickSize ≠ TickSize00001) :
    parseTickSize tickSize = 1 / 100 ∧
    getRoundingConfig tickSize = ⟨2, 2, 4⟩ ∧
    (∀ price, validatePrice price tickSize = validatePrice price TickSize001) ∧
    (∀ side size price, getOrderAmounts side size price tickSize =
      getOrderAmounts side size price TickSize001) ∧
    (∀ side amount price, getMarketOrderAmounts side amount price tickSize =
      getMarketOrderAmounts side amount price TickSize001) := by
  have hp : parseTickSize tickSize = 1 / 100 := by
    simp [parseTickSize, h1, h2, h3, h4]
  have hc : getRoundingConfig tickSize = ⟨2, 2, 4⟩ := by
    simp [getRoundingConfig, h1, h2, h3, h4]
  have hp2 : parseTickSize TickSize001 = 1 / 100 := rfl
  have hc2 : getRoundingConfig TickSize001 = ⟨2, 2, 4⟩ := rfl
  refine ⟨hp, hc, ?_, ?_, ?_⟩
  · intro price
    rw [validatePrice, validatePrice, hp, hp2]
  · intro side size price
    rw [getOrderAmounts, getOrderAmounts, hc, hc2]
  · intro side amount price
    rw [getMarketOrderAmounts, getMarketOrderAmounts, hc, hc2]

/-- Witness for C10 at the unrecognized tick-size string 0.05. -/
theorem unrecognized_tick_size_defaults_witness :
    parseTickSize "0.05" = 1 / 100 ∧
    getRoundingConfig "0.05" = ⟨2, 2, 4⟩ ∧
    (∀ price, validatePrice price "0.05" = validatePrice price TickSize001) ∧
    (∀ side size price, getOrderAmounts side size price "0.05" =
      getOrderAmounts side size price TickSize001) ∧
    (∀ side amount price, getMarketOrderAmounts side amount price "0.05" =
      getMarketOrderAmounts side amount price TickSize001) :=
  unrecognized_tick_size_defaults "0.05" (by decide) (by decide) (by decide) (by decide)

/-- C7: for a recognized side, the market-order amount computation rounds the
input down to profile.size decimals, on BUY divides it by the rounded price
and on SELL multiplies it by the rounded price to obtain the taker leg,
applies the two-stage precision repair to that derived leg, and the
resulting market order carries expiration "0". -/
theorem market_order_amounts (amount price : ℚ) (tickSize : String)
    (_hp : roundNormal price (getRoundingConfig tickSize).price ≠ 0) :
    (getMarketOrderAmounts BUY amount price tickSize =
      Except.ok (0,
        toTokenDecimals (roundDown amount (getRoundingConfig tickSize).size),
        toTokenDecimals (specRepair
          (roundDown amount (getRoundingConfig tickSize).size /
            roundNormal price (getRoundingConfig tickSize).price)
          (getRoundingConfig tickSize)))) ∧
    (getMarketOrderAmounts SELL amount price tickSize =
      Except.ok (1,
        toTokenDecimals (roundDown amount (getRoundingConfig tickSize).size),
        toTokenDecimals (specRepair
          (roundDown amount (getRoundingConfig tickSize).size *
            roundNormal price (getRoundingConfig tickSize).price)
          (getRoundingConfig tickSize)))) ∧
    (∀ side f, createMarketOrderFields side amount price tickSize = Except.ok f →
      f.expiration = "0") := by
  refine ⟨?_, ?_, ?_⟩
  · simp [getMarketOrderAmounts, specRepair, BUY]
  · simp [getMarketOrderAmounts, specRepair, BUY, SELL]
  · intro side f h
    rw [createMarketOrderFields] at h
    rcases hg : getMarketOrderAmounts side amount price tickSize with e | v
    · rw [hg] at h
      exact absurd h (by simp)
    · rcases v with ⟨s, m, t⟩
      rw [hg] at h
      simp only [Except.ok.injEq] at h
      rw [← h]

/-- Witness for C7 at tick size 0.01, amount 10, price 0.5. -/
theorem market_order_amounts_witness :
    (getMarketOrderAmounts BUY 10 (1 / 2) TickSize001 =
      Except.ok (0,
        toTokenDecimals (roundDown 10 (getRoundingConfig TickSize001).size),
        toTokenDecimals (specRepair
          (roundDown 10 (getRoundingConfig TickSize001).size /
            roundNormal (1 / 2) (getRoundingConfig TickSize001).price)
          (getRoundingConfig TickSize001)))) ∧
    (getMarketOrderAmounts SELL 10 (1 / 2) TickSize001 =
      Except.ok (1,
        toTokenDecimals (roundDown 10 (getRoundingConfig TickSize001).size),
        toTokenDecimals (specRepair
          (roundDown 10 (getRoundingConfig TickSize001).size *
            roundNormal (1 / 2) (getRoundingConfig TickSize001).price)
          (getRoundingConfig TickSize001)))) ∧
    (∀ side f, createMarketOrderFields side 10 (1 / 2) TickSize001 = Except.ok f →
      f.expiration = "0") :=
  market_order_amounts 10 (1 / 2) TickSize001 (by
    have hc : getRoundingConfig TickSize001 = ⟨2, 2, 4⟩ := rfl
    rw [hc]
    show roundNormal (1 / 2) 2 ≠ 0
    rw [roundNormal, trunc_eval 101 2 (by norm_num) (by norm_num)]
    norm_num)

/-- C8: the salt generation of signOrder, truncating current Unix seconds
times a random fraction, yields the same salt for two distinct random draws
at the same second, so two distinct signed orders from one signer can carry
equal salts. -/
theorem salt_collision_at_same_second :
    genSalt 1700000000 (1 / 2) = genSalt 1700000000 (3400000001 / 6800000000) ∧
      (1 / 2 : ℚ) ≠ 3400000001 / 6800000000 := by
  constructor
  · rw [genSalt, genSalt,
      trunc_eval 850000000 1 (by norm_num) (by norm_num),
      trunc_eval 3400000001 4 (by norm_num) (by norm_num)]
    decide
  · norm_num

/-- The two-stage repair term as it appears (zeta-reduced) inside the amount
computations preserves non-negativity of its leg. -/
theorem repairIte_nonneg {x : ℚ} (a b : ℕ) (hx : 0 ≤ x) :
    0 ≤ (if decimalPlaces x > a then
           if decimalPlaces (roundUp x b) > a then roundDown (roundUp x b) a
           else roundUp x b
         else x) := by
  split
  · split
    · exact roundDown_nonneg _ (roundUp_nonneg _ hx)
    · exact roundUp_nonneg _ hx
  · exact hx

/-- C9 amended: for non-negative size (or amount) and non-negative price,
every order produced by the limit or market amount computation has
non-negative 10^6-scaled maker and taker amounts. -/
theorem amounts_nonneg_for_nonneg_inputs (side : String) (size price : ℚ)
    (tickSize : String) (s m t : ℤ) (hsize : 0 ≤ size) (hprice : 0 ≤ price)
    (h : getOrderAmounts side size price tickSize = Except.ok (s, m, t) ∨
         getMarketOrderAmounts side size price tickSize = Except.ok (s, m, t)) :
    0 ≤ m ∧ 0 ≤ t := by
  have hrd : 0 ≤ roundDown size (getRoundingConfig tickSize).size :=
    roundDown_nonneg _ hsize
  have hrp : 0 ≤ roundNormal price (getRoundingConfig tickSize).price :=
    roundNormal_nonneg _ hprice
  rcases h with h | h
  · by_cases hb : side = BUY
    · simp only [getOrderAmounts, hb, if_pos] at h
      simp only [Except.ok.injEq, Prod.mk.injEq] at h
      obtain ⟨-, hm, ht⟩ := h
      refine ⟨hm ▸ ?_, ht ▸ ?_⟩
      · exact toTokenDecimals_nonneg (repairIte_nonneg _ _ (mul_nonneg hrd hrp))
      · exact toTokenDecimals_nonneg hrd
    · by_cases hs2 : side = SELL
      · simp only [getOrderAmounts, hs2, SELL, BUY] at h
        rw [if_pos trivial] at h
        injection h with h2
        injection h2 with h3 h4
        injection h4 with h5 h6
        subst h5
        subst h6
        exact ⟨toTokenDecimals_nonneg hrd,
          toTokenDecimals_nonneg (repairIte_nonneg _ _ (mul_nonneg hrd hrp))⟩
      · simp [getOrderAmounts, hb, hs2] at h
  · by_cases hb : side = BUY
    · simp only [getMarketOrderAmounts, hb, if_pos] at h
      simp only [Except.ok.injEq, Prod.mk.injEq] at h
      obtain ⟨-, hm, ht⟩ := h
      refine ⟨hm ▸ ?_, ht ▸ ?_⟩
      · exact toTokenDecimals_nonneg hrd
      · exact toTokenDecimals_nonneg (repairIte_nonneg _ _ (div_nonneg hrd hrp))
    · by_cases hs2 : side = SELL
      · simp only [getMarketOrderAmounts, hs2, SELL, BUY] at h
        rw [if_pos trivial] at h
        injection h with h2
        injection h2 with h3 h4
        injection h4 with h5 h6
        subst h5
        subst h6
        exact ⟨toTokenDecimals_nonneg hrd,
          toTokenDecimals_nonneg (repairIte_nonneg _ _ (mul_nonneg hrd hrp))⟩
      · simp [getMarketOrderAmounts, hb, hs2] at h

/-- Witness for the amended C9 at BUY, size 10, price 0.5, tick size 0.01. -/
theorem amounts_nonneg_for_nonneg_inputs_witness :
    (0 : ℤ) ≤ 5000000 ∧ (0 : ℤ) ≤ 10000000 :=
  amounts_nonneg_for_nonneg_inputs BUY 10 (1 / 2) TickSize001 0 5000000 10000000
    (by norm_num) (by norm_num) (Or.inl (by
      have hprice : roundNormal (1 / 2) 2 = 1 / 2 := by
        rw [roundNormal, trunc_eval 101 2 (by norm_num) (by norm_num)]
        norm_num
      have hsize : roundDown (10 : ℚ) 2 = 10 := by
        rw [roundDown, show ((10 : ℚ) * 10 ^ 2) = ((1000 : ℤ) : ℚ) by norm_num,
          trunc_intCast]
        norm_num
      have hdp : decimalPlaces (5 : ℚ) = 0 := by
        rw [decimalPlaces_int 50000000000 (by norm_num)]
        decide
      have hm : toTokenDecimals (5 : ℚ) = 5000000 := by
        rw [toTokenDecimals, show (5 : ℚ) * 1000000 = ((5000000 : ℤ) : ℚ) by norm_num,
          trunc_intCast]
      have ht : toTokenDecimals (10 : ℚ) = 10000000 := by
        rw [toTokenDecimals, show (10 : ℚ) * 1000000 = ((10000000 : ℤ) : ℚ) by norm_num,
          trunc_intCast]
      have hcfg : getRoundingConfig TickSize001 = ⟨2, 2, 4⟩ := rfl
      simp only [getOrderAmounts, hcfg, hprice, hsize]
      rw [show (10 : ℚ) * (1 / 2) = 5 by norm_num]
      simp [hdp, hm, ht]))

/-- C9 counterexample: a negative size reaches the amount computation
unchecked and yields negative maker and taker amounts. -/
theorem negative_size_gives_negative_amounts :
    getOrderAmounts BUY (-5) (1 / 2) TickSize001 = Except.ok (0, -2500000, -5000000) ∧
      ¬(0 ≤ (-2500000 : ℤ)) := by
  constructor
  · have hprice : roundNormal (1 / 2) 2 = 1 / 2 := by
      rw [roundNormal, trunc_eval 101 2 (by norm_num) (by norm_num)]
      norm_num
    have hsize : roundDown (-5 : ℚ) 2 = -5 := by
      rw [roundDown, show ((-5 : ℚ) * 10 ^ 2) = ((-500 : ℤ) : ℚ) by norm_num,
        trunc_intCast]
      norm_num
    have hdp : decimalPlaces (-5 / 2 : ℚ) = 1 := by
      rw [decimalPlaces_int (-25000000000) (by norm_num)]
      decide
    have hm : toTokenDecimals (-5 / 2 : ℚ) = -2500000 := by
      rw [toTokenDecimals, show (-5 / 2 : ℚ) * 1000000 = ((-2500000 : ℤ) : ℚ) by norm_num,
        trunc_intCast]
    have ht : toTokenDecimals (-5 : ℚ) = -5000000 := by
      rw [toTokenDecimals, show (-5 : ℚ) * 1000000 = ((-5000000 : ℤ) : ℚ) by norm_num,
        trunc_intCast]
    have hcfg : getRoundingConfig TickSize001 = ⟨2, 2, 4⟩ := rfl
    simp only [getOrderAmounts, hcfg, hprice, hsize]
    rw [show (-5 : ℚ) * (1 / 2) = -5 / 2 by norm_num]
    simp [hdp, hm, ht]
  · decide

theorem beBytes_length (k : ℕ) : ∀ n, (beBytes k n).length = k := by
  induction k with
  | zero => intro n; rfl
  | succ k ih => intro n; simp [beBytes, ih]

theorem beVal_append (l : List ℕ) (b : ℕ) : beVal (l ++ [b]) = beVal l * 256 + b := by
  simp [beVal, List.foldl_append]

theorem beVal_beBytes (k : ℕ) : ∀ n, beVal (beBytes k n) = n % 256 ^ k := by
  induction k with
  | zero => intro n; simp [beBytes, beVal, Nat.mod_one]
  | succ k ih =>
    intro n
    rw [beBytes, beVal_append, ih, pow_succ', Nat.mod_mul]
    ring

/-- C4: the signed order digest is keccak256 of 0x19 0x01 followed by the
domain separator and the struct hash, where the struct hash is keccak256 of
the order type hash followed by the 12 fields salt, maker, signer, taker,
tokenId, makerAmount, takerAmount, expiration, nonce, feeRateBps, side,
signatureType, each encoded to 32 bytes in declared order: addresses
left-padded with zero bytes to 32, uint256 values as big-endian 32-byte
integers, uint8 values right-aligned in 32 bytes. -/
theorem order_digest_encoding (keccak : List ℕ → List ℕ) (od : OrderFields)
    (salt exchangeAddress chainID : ℕ) :
    createOrderEIP712Hash keccak od salt exchangeAddress chainID =
      keccak (25 :: 1 :: (createPolymarketDomain keccak chainID exchangeAddress ++
        createOrderStructHash keccak od salt)) ∧
    createOrderStructHash keccak od salt =
      keccak (keccak (strBytes orderTypeStr) ++
        encUint256 salt ++ encAddress od.maker ++ encAddress od.signerAddr ++
        encAddress od.taker ++ encUint256 od.tokenId ++ encUint256 od.makerAmount ++
        encUint256 od.takerAmount ++ encUint256 od.expiration ++ encUint256 od.nonce ++
        encUint256 od.feeRateBps ++ encUint8 od.side ++ encUint8 od.signatureType) ∧
    (∀ n, (encUint256 n).length = 32 ∧ beVal (encUint256 n) = n % 256 ^ 32) ∧
    (∀ a, (encAddress a).length = 32 ∧
      encAddress a = List.replicate 12 0 ++ beBytes 20 a) ∧
    (∀ v, (encUint8 v).length = 32 ∧ encUint8 v = List.replicate 31 0 ++ [v % 256]) := by
  refine ⟨rfl, rfl, ?_, ?_, ?_⟩
  · intro n
    exact ⟨beBytes_length 32 n, beVal_beBytes 32 n⟩
  · intro a
    refine ⟨?_, rfl⟩
    simp [encAddress, beBytes_length]
  · intro v
    refine ⟨?_, rfl⟩
    simp [encUint8]

theorem bytesToHex_length (l : List ℕ) : (bytesToHex l).length = 2 * l.length := by
  induction l with
  | nil => rfl
  | cons b rest ih =>
    simp only [bytesToHex, List.length_cons, ih]
    ring

theorem hexDigitChar_isHex : ∀ n < 16, isHexDigitChar (hexDigitChar n) = true := by
  decide

theorem bytesToHex_chars {l : List ℕ} (hl : ∀ b ∈ l, b < 256) :
    ∀ c ∈ bytesToHex l, isHexDigitChar c = true := by
  induction l with
  | nil => simp [bytesToHex]
  | cons b rest ih =>
    intro c hc
    have hb : b < 256 := hl b (by simp)
    simp only [bytesToHex, List.mem_cons] at hc
    rcases hc with h | h | h
    · exact h ▸ hexDigitChar_isHex (b / 16) (by omega)
    · exact h ▸ hexDigitChar_isHex (b % 16) (by omega)
    · exact ih (fun x hx => hl x (by simp [hx])) c h

/-- C5: when signing succeeds, the 64 r‖s bytes plus the normalized recovery
byte form a 65-byte signature whose final byte is 27 or 28 (a raw recovery
id below 27 is shifted up by 27), and the transported signature string is
0x followed by 130 lowercase hexadecimal characters. -/
theorem sign_normalizes_recovery_id (body : List ℕ) (v : ℕ)
    (hlen : body.length = 64) (hv : v < 2) (hbytes : ∀ b ∈ body, b < 256) :
    (adjustRecovery body v).length = 65 ∧
    ((adjustRecovery body v).getLast? = some 27 ∨
      (adjustRecovery body v).getLast? = some 28) ∧
    signatureHexString (adjustRecovery body v) =
      "0x" ++ String.mk (bytesToHex (adjustRecovery body v)) ∧
    (bytesToHex (adjustRecovery body v)).length = 130 ∧
    (∀ c ∈ bytesToHex (adjustRecovery body v), isHexDigitChar c = true) := by
  have hadj : adjustRecovery body v = body ++ [v + 27] := by
    rw [adjustRecovery, if_pos (by omega)]
  have hbytes2 : ∀ b ∈ body ++ [v + 27], b < 256 := by
    intro b hb
    rcases List.mem_append.mp hb with h | h
    · exact hbytes b h
    · simp at h
      omega
  rw [hadj]
  refine ⟨by simp [hlen], ?_, rfl, ?_, bytesToHex_chars hbytes2⟩
  · rw [List.getLast?_concat]
    interval_cases v
    · exact Or.inl rfl
    · exact Or.inr rfl
  · rw [bytesToHex_length]
    simp [hlen]

/-- Witness for C5 with a zero r‖s body and raw recovery id 1. -/
theorem sign_normalizes_recovery_id_witness :
    (adjustRecovery (List.replicate 64 0) 1).length = 65 ∧
    ((adjustRecovery (List.replicate 64 0) 1).getLast? = some 27 ∨
      (adjustRecovery (List.replicate 64 0) 1).getLast? = some 28) ∧
    signatureHexString (adjustRecovery (List.replicate 64 0) 1) =
      "0x" ++ String.mk (bytesToHex (adjustRecovery (List.replicate 64 0) 1)) ∧
    (bytesToHex (adjustRecovery (List.replicate 64 0) 1)).length = 130 ∧
    (∀ c ∈ bytesToHex (adjustRecovery (List.replicate 64 0) 1), isHexDigitChar c = true) :=
  sign_normalizes_recovery_id (List.replicate 64 0) 1 (by simp) (by omega)
    (fun b hb => by
      simp [List.mem_replicate] at hb
      omega)

/-- C6: level-2 header construction fails with the invalid-credential-secret
error exactly when the supplied secret is not valid base64url; otherwise the
signature is the base64url encoding of HMAC-SHA256 keyed by the base64url
decoding of the secret over timestamp, method, path and — iff a body is
supplied — the body with single quotes replaced by double quotes, all
concatenated with no separators. -/
theorem hmac_signature_formula (hmacSha256 : List ℕ → List ℕ → List ℕ) (secret : String)
    (timestamp : ℤ) (method requestPath : String) (body : Option String) :
    (buildHMACSignature hmacSha256 secret timestamp method requestPath body =
        Except.error ClientError.invalidCredentialSecret ↔
      b64Decode secret.data = none) ∧
    (∀ key, b64Decode secret.data = some key →
      buildHMACSignature hmacSha256 secret timestamp method requestPath body =
        Except.ok (String.mk (b64Encode (hmacSha256 key
          (strBytes (hmacMessage timestamp method requestPath body)))))) := by
  constructor
  · cases h : b64Decode secret.data <;> simp [buildHMACSignature, h]
  · intro key hk
    simp [buildHMACSignature, hk]

/-- Witness for C6 at the Scenario C secret. -/
theorem hmac_signature_formula_witness :
    buildHMACSignature (fun _ _ => []) "c2VjcmV0" 1 "POST" "/order" none =
      Except.ok (String.mk (b64Encode ((fun _ _ => ([] : List ℕ))
        [115, 101, 99, 114, 101, 116]
        (strBytes (hmacMessage 1 "POST" "/order" none))))) :=
  (hmac_signature_formula (fun _ _ => []) "c2VjcmV0" 1 "POST" "/order" none).2
    [115, 101, 99, 114, 101, 116] (by decide)

end PolyClob
